import Mathlib

/-!
# Verification of the ultimate-rps-server game and user-management code

This file gives a shallow embedding, in Lean 4, of the parts of the
`ultimate-rps-server` repository that the checked claims are about:

* the per-room elimination-game state machine
  (`src/app/game/game_state.py`, class `GameState`, and its twin
  `src/app/routers/websocket.py`, class `RoomState`);
* the persisted `Room` and `User` rows
  (`src/app/models/room.py`, `src/app/models/user.py`);
* the password-change and admin-password-reset HTTP handlers
  (`src/app/routers/users.py`) together with the passlib hashing boundary
  (`src/app/auth/utils.py`);
* the substitution-cipher utilities of `src/enc_library.py`, together with
  the Python standard-library base64 and UTF-8 codecs they call.

Python dictionaries are embedded as insertion-ordered association lists,
Python sets as duplicate-free lists where only membership and size are
observed, and fallible Python code returns `Except`/`Option` values.
-/

/-! ## Ordered-dictionary and set helpers

Python `dict` preserves insertion order; assignment to an existing key
keeps its position, assignment to a fresh key appends.  `set.add` and
`set.discard` are modelled on lists observed only up to membership and
size. -/

def dictGet {α : Type} (d : List (String × α)) (k : String) : Option α :=
  (d.find? (fun p => p.1 == k)).map (fun p => p.2)

def dictHasKey {α : Type} (d : List (String × α)) (k : String) : Bool :=
  d.any (fun p => p.1 == k)

def dictSet {α : Type} (d : List (String × α)) (k : String) (v : α) :
    List (String × α) :=
  if d.any (fun p => p.1 == k) then
    d.map (fun p => if p.1 == k then (p.1, v) else p)
  else
    d ++ [(k, v)]

def dictPop {α : Type} (d : List (String × α)) (k : String) :
    List (String × α) :=
  d.filter (fun p => p.1 != k)

def dictMapAt {α : Type} (d : List (String × α)) (k : String) (f : α → α) :
    List (String × α) :=
  d.map (fun p => if p.1 == k then (p.1, f p.2) else p)

def setAdd (s : List String) (u : String) : List String :=
  if s.contains u then s else s ++ [u]

def setDiscard (s : List String) (u : String) : List String :=
  s.filter (fun v => v != u)

/-! ## In-memory game data model

`PlayerInfo` and `GameRoundState` are the dataclasses declared in
`src/app/routers/websocket.py` (lines 27-45) and re-exported through
`src/app/models`.  Timestamps (`time.time()`) are modelled as naturals. -/

structure PlayerInfo where
  user_id : String
  username : String
  connected_at : Nat
  actions_submitted : Nat := 0
  is_eliminated : Bool := false
deriving Repr, DecidableEq

structure GameRoundState where
  round_number : Int
  actions : List (String × Int) := []
  ready_players : List String := []
deriving Repr, DecidableEq

/-- `GameRoundState.reset` (websocket.py lines 42-45): clear the action map
and the ready set and increment the round number. -/
def GameRoundState.reset (r : GameRoundState) : GameRoundState :=
  { round_number := r.round_number + 1, actions := [], ready_players := [] }

/-- The in-memory per-room state of class `GameState`
(`src/app/game/game_state.py`, constructor lines 15-29).  The
`_connections` websocket dictionary is observed only through its key set,
so it is modelled as the insertion-ordered list of connected usernames. -/
structure GameState where
  room_id : Nat
  max_players : Nat
  number_of_actions : Int
  connections : List String := []
  player_info : List (String × PlayerInfo) := []
  kicked_players : List String := []
  game_active : Bool := false
  game_over : Bool := false
  winner : Option String := none
  current_round : GameRoundState := { round_number := 1 }
  eliminated_players : List String := []
deriving Repr, DecidableEq

/-- A freshly constructed room state (`GameState.__init__`). -/
def GameState.fresh (room_id max_players : Nat) (number_of_actions : Int) :
    GameState :=
  { room_id := room_id, max_players := max_players,
    number_of_actions := number_of_actions }

/-- `GameState.is_full` (game_state.py lines 34-36). -/
def GameState.is_full (s : GameState) : Bool :=
  s.connections.length ≥ s.max_players

/-- `GameState.active_players` (game_state.py lines 38-44): the usernames of
the non-eliminated `PlayerInfo` entries, in insertion order. -/
def GameState.active_players (s : GameState) : List String :=
  (s.player_info.filter (fun p => !p.2.is_eliminated)).map (fun p => p.1)

/-- `GameState.submit_action` (game_state.py lines 90-103, identical to
`RoomState.submit_action`, websocket.py lines 103-116).  Returns the
updated state and the Python boolean result. -/
def GameState.submit_action (s : GameState) (username : String)
    (action : Int) : GameState × Bool :=
  match dictGet s.player_info username with
  | none => (s, false)
  | some info =>
    if info.is_eliminated then (s, false)
    else if s.game_over then (s, false)
    else if action < 0 || action ≥ s.number_of_actions then (s, false)
    else
      ({ s with
          current_round :=
            { s.current_round with
                actions := dictSet s.current_round.actions username action,
                ready_players := setAdd s.current_round.ready_players username },
          player_info :=
            dictMapAt s.player_info username
              (fun i => { i with actions_submitted := i.actions_submitted + 1 }) },
        true)

/-- `GameState.all_players_ready` (game_state.py lines 105-106). -/
def GameState.all_players_ready (s : GameState) : Bool :=
  s.current_round.ready_players.length == s.active_players.length

/-- The result dictionary returned by `process_round`
(game_state.py lines 137-144). -/
structure RoundResult where
  round : Int
  actions : List (String × Int)
  eliminated : List String
  remaining : List String
  game_over : Bool
  winner : Option String
deriving Repr, DecidableEq

/-- The `ValueError` raised by `process_round` before all players are
ready (game_state.py line 110). -/
inductive ProcessError where
  | notAllReady
deriving Repr, DecidableEq

/-- One elimination step of the python loop at game_state.py lines 121-126:
record the username of seat `idx` of the just-built player list, add it to
the eliminated set and flip its `PlayerInfo.is_eliminated` flag.  The
external engine's contract is to return in-range seat indices; an
out-of-range index (which would raise `IndexError` in Python) is excluded
by hypothesis in every theorem that touches this code. -/
def eliminationStep (players : List (String × Int))
    (acc : List String × GameState) (idx : Nat) : List String × GameState :=
  let username := ((players.getD idx (default, 0))).1
  ( acc.1 ++ [username],
    { acc.2 with
        eliminated_players := setAdd acc.2.eliminated_players username,
        player_info :=
          dictMapAt acc.2.player_info username
            (fun i => { i with is_eliminated := true }) } )

/-- `GameState.process_round` (game_state.py lines 108-144, identical to
`RoomState.process_round`, websocket.py lines 121-157).  The external
`rps` engine (`Game(players, number_of_actions).eliminate(actions)`) is a
third-party boundary; it is passed in as the function `elim`, taking the
configured number of actions and the fixed-action player list and
returning the eliminated seat indices.  On the `ValueError` path the
state is returned unchanged, exactly as the Python `raise` happens before
any mutation. -/
def GameState.process_round
    (elim : Int → List (String × Int) → List Nat) (s : GameState) :
    GameState × Except ProcessError RoundResult :=
  if ¬ s.all_players_ready then
    (s, .error .notAllReady)
  else
    let players := s.current_round.actions
    let eliminated_indices := elim s.number_of_actions players
    let marked := eliminated_indices.foldl (eliminationStep players) ([], s)
    let eliminated_usernames := marked.1
    let s1 := marked.2
    let remaining := s1.active_players
    let s2 :=
      if remaining.length ≤ 1 then
        { s1 with game_over := true, game_active := false,
                  winner := remaining.head? }
      else
        { s1 with current_round := s1.current_round.reset }
    ( s2,
      .ok { round := s2.current_round.round_number - 1,
            actions := s2.current_round.actions,
            eliminated := eliminated_usernames,
            remaining := remaining,
            game_over := s2.game_over,
            winner := s2.winner } )

/-- `GameState.reset_game` (game_state.py lines 156-164): clear the
game-active/over flags and the winner, install a fresh round 1, empty the
eliminated set and clear every remaining player's elimination flag.  The
kicked set is not touched. -/
def GameState.reset_game (s : GameState) : GameState :=
  { s with
      game_active := false,
      game_over := false,
      winner := none,
      current_round := { round_number := 1 },
      eliminated_players := [],
      player_info :=
        s.player_info.map (fun p => (p.1, { p.2 with is_eliminated := false })) }

/-- `GameState.start_game` (game_state.py lines 146-154). -/
def GameState.start_game (s : GameState) : GameState × Bool :=
  if s.connections.length < 2 then (s, false)
  else if s.game_active then (s, false)
  else ({ s.reset_game with game_active := true }, true)

/-- `GameState.remove_player` (game_state.py lines 72-88), restricted to
its in-memory effect: delete the connection and the `PlayerInfo` row, pop
the username's pending action and discard it from the ready set.  (The
decrement of the persisted room counter is modelled with `add_player`
below.) -/
def GameState.remove_player (s : GameState) (username : String) : GameState :=
  if ¬ s.connections.contains username then s
  else
    { s with
        connections := s.connections.filter (fun v => v != username),
        player_info := dictPop s.player_info username,
        current_round :=
          { s.current_round with
              actions := dictPop s.current_round.actions username,
              ready_players := setDiscard s.current_round.ready_players username } }

/-- The join rejections raised by `GameState.add_player`
(game_state.py lines 52-57), plus the uncaught `AttributeError` that its
database step raises (see `Room.number_of_players_attr` below). -/
inductive AddError where
  | roomFull
  | alreadyInRoom
  | previouslyKicked
  | attributeError
deriving Repr, DecidableEq

/-- The in-memory registration effect of a successful
`GameState.add_player` (game_state.py lines 52-57 and 66-69, which is the
whole of `RoomState.add_player`, websocket.py lines 80-90, plus the kicked
check): reject when the room is full, the username is already connected
or the username was kicked, otherwise register the websocket connection
and a fresh `PlayerInfo`. -/
def GameState.add_player_mem (now : Nat) (user_id username : String)
    (s : GameState) : Except AddError GameState :=
  if s.is_full then .error .roomFull
  else if s.connections.contains username then .error .alreadyInRoom
  else if s.kicked_players.contains username then .error .previouslyKicked
  else
    .ok { s with
            connections := s.connections ++ [username],
            player_info :=
              s.player_info ++
                [(username,
                  { user_id := user_id, username := username,
                    connected_at := now })] }

/-! ## Persisted rows and the database-backed `add_player`

`src/app/models/room.py` declares the persisted `Room` row.  Its declared
columns are exactly: `room_name`, `max_players`, `number_of_actions`,
`created_at`, `disabled` (from `RoomBase`) and `id`, `created_by`.  There
is **no** `number_of_players` column, although
`GameState.add_player`/`remove_player` (game_state.py lines 61-63, 77-80)
read and write `room_db.number_of_players`. -/

structure Room where
  room_name : String
  max_players : Int
  number_of_actions : Int
  created_at : Nat
  disabled : Bool := false
  id : Option Int := none
  created_by : Int
deriving Repr, DecidableEq

/-- Python attribute access `room_db.number_of_players`.  The `Room` model
declares no such column, so on any instance the access raises
`AttributeError`; this total model therefore returns `none` for every
row, and callers map `none` to an `AttributeError` outcome. -/
def Room.number_of_players_attr (_ : Room) : Option Int := none

/-- `GameState.add_player` (game_state.py lines 51-69) including its
database step.  `roomDb` is the result of `session.get(Room, room_id)`.
After the three join checks the Python code evaluates
`room_db.number_of_players += 1`; because the attribute read fails (see
`Room.number_of_players_attr`) the method raises before registering the
player, so the nominal success continuation below is unreachable. -/
def GameState.add_player (now : Nat) (user_id username : String)
    (s : GameState) (roomDb : Option Room) :
    Except AddError (GameState × Room) :=
  if s.is_full then .error .roomFull
  else if s.connections.contains username then .error .alreadyInRoom
  else if s.kicked_players.contains username then .error .previouslyKicked
  else
    match roomDb with
    | none => .error .attributeError
    | some row =>
      match row.number_of_players_attr with
      | none => .error .attributeError
      | some _ =>
        .ok ({ s with
                connections := s.connections ++ [username],
                player_info :=
                  s.player_info ++
                    [(username,
                      { user_id := user_id, username := username,
                        connected_at := now })] },
              row)

/-! ## Reachability of game states

The state machine is driven by the operation set named in the spec:
`AddPlayer`, `RemovePlayer`, `SubmitAction`, `ProcessRound`, `StartGame`
and `ResetGame`, starting from a freshly constructed room.  `ProcessRound`
may be driven by an arbitrary external elimination engine. -/

inductive Reachable : GameState → Prop where
  | init (room_id max_players : Nat) (number_of_actions : Int) :
      Reachable (GameState.fresh room_id max_players number_of_actions)
  | add (s s' : GameState) (now : Nat) (user_id username : String) :
      Reachable s → GameState.add_player_mem now user_id username s = .ok s' →
      Reachable s'
  | remove (s : GameState) (username : String) :
      Reachable s → Reachable (s.remove_player username)
  | submit (s : GameState) (username : String) (action : Int) :
      Reachable s → Reachable (s.submit_action username action).1
  | process (s : GameState) (elim : Int → List (String × Int) → List Nat) :
      Reachable s → Reachable (GameState.process_round elim s).1
  | start (s : GameState) :
      Reachable s → Reachable s.start_game.1
  | reset (s : GameState) :
      Reachable s → Reachable s.reset_game

/-- A sample instantiation of the external `rps` engine's
`Game.eliminate` for the classic three-action game: action `x` beats
action `y` exactly when `(x - y) % 3 = 1` (paper beats rock, scissors
beats paper, rock beats scissors), and a seat is eliminated when some
other submitted action beats its action.  It is used only to build
concrete witnesses and counterexamples; every general theorem quantifies
over the engine. -/
def sampleEliminate (_n : Int) (players : List (String × Int)) : List Nat :=
  let actions := players.map (fun p => p.2)
  let beaten := fun a => actions.any (fun b => (b - a) % 3 == 1)
  ((List.range players.length).filter
    (fun i => beaten ((players.getD i (default, 0)).2)))

/-! ## User rows, the passlib boundary and the password handlers

`src/app/models/user.py` declares the persisted `User` row with exactly
the columns `username`, `disabled` (from `UserBase`) and `id`,
`hashed_password`.  There is **no** `is_admin` column, although
`admin_reset_user_password` (users.py line 163) reads
`current_user.is_admin`. -/

structure User where
  username : String
  disabled : Bool := false
  id : Option Int := none
  hashed_password : String
deriving Repr, DecidableEq

/-- Python attribute access `current_user.is_admin`: the `User` model
declares no such column, so the access raises `AttributeError` on every
instance; modelled as a constantly-`none` read. -/
def User.is_admin_attr (_ : User) : Option Bool := none

/-- The request bodies of the two password endpoints
(`src/app/schemas/user.py`).  `UserUpdatePassword` declares both fields
optional. -/
structure UserUpdatePassword where
  current_password : Option String := none
  new_password : Option String := none
deriving Repr, DecidableEq

structure AdminResetPassword where
  new_password : String
deriving Repr, DecidableEq

/-- The success body of `change_user_password`
(`UserUpdateResponse` in `src/app/schemas/user.py`). -/
structure UserUpdateResponse where
  message : String
  user_id : Int
deriving Repr, DecidableEq

/-- The success body of `admin_reset_user_password` (users.py line 180),
a dictionary carrying a message and the target user id. -/
structure AdminResetResponse where
  message : String
  user_id : Int
deriving Repr, DecidableEq

/-- The failure outcomes of the two password handlers: the four declared
`HTTPException`s of users.py lines 121-148 and 164-174, plus the two
uncaught Python exceptions that the code can raise (a `TypeError` from
passlib when handed a non-string secret, and an `AttributeError` from the
missing `is_admin` column). -/
inductive ApiFailure where
  | forbidden
  | notFound
  | incorrectCurrentPassword
  | newPasswordSameAsCurrent
  | pyTypeError
  | pyAttributeError
deriving Repr, DecidableEq

/-- A bcrypt-style hashing scheme, the passlib `CryptContext` boundary of
`src/app/auth/utils.py` (lines 17-25): a hashing function and a
verification predicate.  The handlers are verified for every scheme. -/
structure HashScheme where
  hash : String → String
  verify : String → String → Bool

/-- A Python value handed to passlib as the secret argument: either an
actual string, or `None` (an omitted optional body field), or a whole
`AdminResetPassword` pydantic model (which is what users.py line 176
passes). -/
inductive PySecret where
  | str (s : String)
  | noneVal
  | adminModel (m : AdminResetPassword)
deriving Repr, DecidableEq

def pySecretOfOpt : Option String → PySecret
  | some s => .str s
  | none => .noneVal

/-- `get_password_hash` (auth/utils.py lines 24-25).  passlib's
`CryptContext.hash` requires its secret to be `str` or `bytes` and raises
`TypeError` for anything else. -/
def get_password_hash (hs : HashScheme) : PySecret → Except ApiFailure String
  | .str s => .ok (hs.hash s)
  | _ => .error .pyTypeError

/-- `verify_password` (auth/utils.py lines 20-21), with the same passlib
secret-type contract as `get_password_hash`. -/
def verify_password (hs : HashScheme) (secret : PySecret)
    (hashed : String) : Except ApiFailure Bool :=
  match secret with
  | .str s => .ok (hs.verify s hashed)
  | _ => .error .pyTypeError

/-- `session.get(User, user_id)`: primary-key lookup in the user table. -/
def dbGetUser (db : List User) (user_id : Int) : Option User :=
  db.find? (fun u => u.id == some user_id)

/-- Committing an updated row: replace the row with primary key
`user_id`. -/
def dbSetUser (db : List User) (user_id : Int) (u : User) : List User :=
  db.map (fun v => if v.id == some user_id then u else v)

/-- `change_user_password` (users.py lines 116-153).  Returns the user
table after the call together with the HTTP outcome; every failure path
raises before the row is mutated, so it returns the table unchanged. -/
def change_user_password (hs : HashScheme) (caller : User) (user_id : Int)
    (body : UserUpdatePassword) (db : List User) :
    List User × Except ApiFailure UserUpdateResponse :=
  if caller.id ≠ some user_id then (db, .error .forbidden)
  else
    match dbGetUser db user_id with
    | none => (db, .error .notFound)
    | some user_db =>
      match verify_password hs (pySecretOfOpt body.current_password)
          user_db.hashed_password with
      | .error e => (db, .error e)
      | .ok okCurrent =>
        if ¬ okCurrent then (db, .error .incorrectCurrentPassword)
        else
          match verify_password hs (pySecretOfOpt body.new_password)
              user_db.hashed_password with
          | .error e => (db, .error e)
          | .ok okNew =>
            if okNew then (db, .error .newPasswordSameAsCurrent)
            else
              match get_password_hash hs (pySecretOfOpt body.new_password) with
              | .error e => (db, .error e)
              | .ok h =>
                ( dbSetUser db user_id { user_db with hashed_password := h },
                  .ok { message := "Password changed successfully",
                        user_id := user_id } )

/-- `admin_reset_user_password` (users.py lines 156-180).  The handler
first reads `current_user.is_admin` (line 163), which raises
`AttributeError` because the `User` model declares no such column; the
rest of the handler is therefore unreachable.  For fidelity the nominal
continuation is still translated: note that line 176 hashes the whole
`AdminResetPassword` body object rather than its `new_password` field. -/
def admin_reset_user_password (hs : HashScheme) (caller : User)
    (user_id : Int) (new_password : AdminResetPassword) (db : List User) :
    List User × Except ApiFailure AdminResetResponse :=
  match caller.is_admin_attr with
  | none => (db, .error .pyAttributeError)
  | some isAdmin =>
    if ¬ isAdmin then (db, .error .forbidden)
    else
      match dbGetUser db user_id with
      | none => (db, .error .notFound)
      | some user_db =>
        match get_password_hash hs (.adminModel new_password) with
        | .error e => (db, .error e)
        | .ok h =>
          ( dbSetUser db user_id { user_db with hashed_password := h },
            .ok { message := "Password reset", user_id := user_id } )

/-! ## The encoding utility library (`src/enc_library.py`)

`two_way_enc`/`two_way_dec` call into the Python standard library:
`str.encode('utf-8')`, `base64.b64encode`, `base64.b64decode` and
`bytes.decode('utf-8')`.  Those codecs are external boundaries and are
modelled here by their documented behaviour (RFC 4648 base64 with `=`
padding; standard UTF-8).  Bytes are naturals below 256. -/

/-- The standard base64 alphabet, as used by `base64.b64encode`. -/
def b64Alphabet : List Char :=
  ['A', 'B', 'C', 'D', 'E', 'F', 'G', 'H', 'I', 'J', 'K', 'L', 'M',
   'N', 'O', 'P', 'Q', 'R', 'S', 'T', 'U', 'V', 'W', 'X', 'Y', 'Z',
   'a', 'b', 'c', 'd', 'e', 'f', 'g', 'h', 'i', 'j', 'k', 'l', 'm',
   'n', 'o', 'p', 'q', 'r', 's', 't', 'u', 'v', 'w', 'x', 'y', 'z',
   '0', '1', '2', '3', '4', '5', '6', '7', '8', '9', '+', '/']

def b64CharOf (n : Nat) : Char := b64Alphabet.getD n 'A'

def b64IndexOf (c : Char) : Option Nat := b64Alphabet.findIdx? (fun d => d == c)

/-- `base64.b64encode` on a byte list: three bytes become four alphabet
characters; a final group of one or two bytes is padded with `=`. -/
def b64EncodeBytes : List Nat → List Char
  | a :: b :: c :: rest =>
    b64CharOf (a / 4) :: b64CharOf (a % 4 * 16 + b / 16) ::
      b64CharOf (b % 16 * 4 + c / 64) :: b64CharOf (c % 64) ::
        b64EncodeBytes rest
  | [a, b] =>
    [b64CharOf (a / 4), b64CharOf (a % 4 * 16 + b / 16),
     b64CharOf (b % 16 * 4), '=']
  | [a] => [b64CharOf (a / 4), b64CharOf (a % 4 * 16), '=', '=']
  | [] => []

/-- `base64.b64decode` on the retained characters, four at a time; `=`
padding may close the final quad (one trailing `=` leaves two bytes, two
trailing `=` leave one byte).  Any other shape — a character outside the
alphabet, or a length that is not a multiple of four — fails, as
`binascii.Error` does. -/
def b64DecodeQuads : List Char → Option (List Nat)
  | [] => some []
  | c1 :: c2 :: c3 :: c4 :: rest => do
    let i1 ← b64IndexOf c1
    let i2 ← b64IndexOf c2
    if c3 = '=' ∧ c4 = '=' ∧ rest = [] then
      pure [i1 * 4 + i2 / 16]
    else if c4 = '=' ∧ rest = [] then do
      let i3 ← b64IndexOf c3
      pure [i1 * 4 + i2 / 16, i2 % 16 * 16 + i3 / 4]
    else do
      let i3 ← b64IndexOf c3
      let i4 ← b64IndexOf c4
      let tail ← b64DecodeQuads rest
      pure ((i1 * 4 + i2 / 16) :: (i2 % 16 * 16 + i3 / 4) ::
        (i3 % 4 * 64 + i4) :: tail)
  | _ => none

/-- `base64.b64decode` (without `validate=True`) first discards every
character that is neither in the alphabet nor `=`, then decodes. -/
def b64DecodeChars (cs : List Char) : Option (List Nat) :=
  b64DecodeQuads
    (cs.filter (fun c => b64Alphabet.contains c || c == '='))

/-- UTF-8 encoding of one code point (`str.encode('utf-8')`). -/
def utf8EncodeChar (n : Nat) : List Nat :=
  if n < 128 then [n]
  else if n < 2048 then [192 + n / 64, 128 + n % 64]
  else if n < 65536 then [224 + n / 4096, 128 + n / 64 % 64, 128 + n % 64]
  else
    [240 + n / 262144, 128 + n / 4096 % 64, 128 + n / 64 % 64, 128 + n % 64]

/-- `str.encode('utf-8')` over a whole string. -/
def strToBytes (s : String) : List Nat :=
  s.data.flatMap (fun c => utf8EncodeChar c.toNat)

/-- One step of the strict UTF-8 decoder (`bytes.decode('utf-8')`):
given the lead byte and the remaining bytes, produce the decoded code
point and the bytes left over, or fail (`UnicodeDecodeError`) on a
malformed, overlong, surrogate or out-of-range sequence. -/
def utf8DecodeStep (b : Nat) (rest : List Nat) : Option (Nat × List Nat) :=
  if b < 128 then some (b, rest)
  else if b < 192 then none
  else if b < 224 then
    match rest with
    | b2 :: rest2 =>
      if 128 ≤ b2 && b2 < 192 then
        let cp := (b - 192) * 64 + (b2 - 128)
        if cp < 128 then none else some (cp, rest2)
      else none
    | [] => none
  else if b < 240 then
    match rest with
    | b2 :: b3 :: rest3 =>
      if (128 ≤ b2 && b2 < 192) && (128 ≤ b3 && b3 < 192) then
        let cp := (b - 224) * 4096 + (b2 - 128) * 64 + (b3 - 128)
        if cp < 2048 || (55296 ≤ cp && cp < 57344) then none
        else some (cp, rest3)
      else none
    | _ => none
  else if b < 248 then
    match rest with
    | b2 :: b3 :: b4 :: rest4 =>
      if ((128 ≤ b2 && b2 < 192) && (128 ≤ b3 && b3 < 192)) &&
          (128 ≤ b4 && b4 < 192) then
        let cp := (b - 240) * 262144 + (b2 - 128) * 4096 +
          (b3 - 128) * 64 + (b4 - 128)
        if cp < 65536 || 1114112 ≤ cp then none
        else some (cp, rest4)
      else none
    | _ => none
  else none

/-- The decoding loop, driven by a fuel counter; each step consumes at
least one byte, so fuel equal to the byte count always suffices. -/
def utf8DecodeAux : Nat → List Nat → Option (List Char)
  | _, [] => some []
  | 0, _ :: _ => none
  | Nat.succ fuel, b :: rest =>
    match utf8DecodeStep b rest with
    | none => none
    | some (cp, rest2) =>
      (utf8DecodeAux fuel rest2).map (fun tail => Char.ofNat cp :: tail)

/-- `bytes.decode('utf-8')`: the strict UTF-8 decoder, failing on
malformed sequences. -/
def utf8DecodeBytes (bs : List Nat) : Option (List Char) :=
  utf8DecodeAux bs.length bs

/-- The empty Python string. -/
def emptyStr : String := ""

/-- Python `str.isspace()`: true iff the string is non-empty and every
character is Unicode whitespace. -/
def isPySpaceChar (c : Char) : Bool :=
  c.toNat ∈ [9, 10, 11, 12, 13, 28, 29, 30, 31, 32, 133, 160, 5760,
    8192, 8193, 8194, 8195, 8196, 8197, 8198, 8199, 8200, 8201, 8202,
    8232, 8233, 8239, 8287, 12288]

def pyIsSpace (s : String) : Bool :=
  !s.data.isEmpty && s.data.all isPySpaceChar

/-- The two parallel substitution tables of `EncLibrary._get_pair_key`
(enc_library.py lines 11-33), verbatim. -/
def pairKey0 : List Char :=
  ['A', 'd', 'K', 'a', '!', '6', 'y', 'r', '7', 'M', ')',
   '(', 'z', 'U', '`', '{', 'V', '[', '#', 'f', '1', '8',
   ':', 'o', 'x', '@', 'L', 'R', 'G', '%', '&', '^', ';',
   'P', '=', 'e', '}', 'i', 'D', 'T', 's', 'S', '>', '-',
   '/', ',', '+', '<', 'v', ']', 't', '~', 'C', 'u', '$',
   'N', '_', 'j', '*', '?', 'c', 'q', '.', 'J', 'O']

def pairKey1 : List Char :=
  ['O', 'N', 'L', 'Y', 'b', 'y', 'G', 'R', 'A', 'C', 'E',
   'j', 'Q', 'g', 'w', 'B', 'h', 'x', 'S', 'i', 'D', 'T',
   'z', 'U', 'k', '0', 'F', 'V', 'l', '1', 'W', 'm', '2',
   'H', 'X', 'n', '3', 'I', 'o', '4', 'J', 'Z', 'p', '5',
   'K', 'a', 'q', '6', 'r', '7', 'M', 'c', 's', '8', 'd',
   't', '9', 'e', 'u', '+', 'P', 'f', 'v', '/', '=']

/-- One character of the `two_way_enc` loop (enc_library.py lines 60-65):
`pair_key[1].index(char)` followed by `pair_key[0][idx]`, with the
`ValueError` handler passing the character through unchanged. -/
def substEncChar (c : Char) : Char :=
  match pairKey1.findIdx? (fun d => d == c) with
  | some idx => pairKey0.getD idx c
  | none => c

/-- One character of the `two_way_dec` loop (enc_library.py lines 74-79). -/
def substDecChar (c : Char) : Char :=
  match pairKey0.findIdx? (fun d => d == c) with
  | some idx => pairKey1.getD idx c
  | none => c

/-- `EncLibrary.base64_enc` (enc_library.py lines 35-42) on a string
argument. -/
def base64_enc (value : String) : String :=
  ⟨b64EncodeBytes (strToBytes value)⟩

/-- `EncLibrary.base64_dec` (enc_library.py lines 44-50) on a string
argument; `none` models a raised `binascii.Error` or
`UnicodeDecodeError`. -/
def base64_dec (value : String) : Option String := do
  let bytes ← b64DecodeChars value.data
  let chars ← utf8DecodeBytes bytes
  pure ⟨chars⟩

/-- `EncLibrary.two_way_enc` (enc_library.py lines 52-66). -/
def two_way_enc (value : String) : String :=
  if value.data.isEmpty || pyIsSpace value then emptyStr
  else ⟨(base64_enc value).data.map substEncChar⟩

/-- `EncLibrary.two_way_dec` (enc_library.py lines 68-83). -/
def two_way_dec (value : String) : Option String :=
  if value.data.isEmpty || pyIsSpace value then some emptyStr
  else base64_dec ⟨value.data.map substDecChar⟩

/-! ## Spec-side description of `SubmitAction`

`submit_action_described` restates, in the claim's own phrasing, what
`SubmitAction` is specified to do: it is rejected exactly when the
username has no `PlayerInfo` entry, or is marked eliminated, or the
game-over flag is set, or the action is outside `[0, number_of_actions)`;
otherwise it records the action, marks the username ready and increments
that player's submitted-action counter. -/

def submitRejected (s : GameState) (username : String) (action : Int) :
    Bool :=
  !(dictHasKey s.player_info username)
    || ((dictGet s.player_info username).map
          (fun i => i.is_eliminated)).getD false
    || s.game_over
    || decide (action < 0)
    || decide (action ≥ s.number_of_actions)

def submit_action_described (s : GameState) (username : String)
    (action : Int) : GameState × Bool :=
  if submitRejected s username action then (s, false)
  else
    ({ s with
        current_round :=
          { s.current_round with
              actions := dictSet s.current_round.actions username action,
              ready_players := setAdd s.current_round.ready_players username },
        player_info :=
          dictMapAt s.player_info username
            (fun i => { i with actions_submitted := i.actions_submitted + 1 }) },
      true)

/-! ## Spec-side description of `ChangePassword` -/

/-- `change_user_password_described` restates the claim's specification
of `ChangePassword`: Forbidden if the caller is not the target, then
NotFound if the target is absent, then InvalidCredentials if the supplied
current password does not verify against the stored hash, then
InvalidOperation if the supplied new password verifies against the stored
hash, otherwise store a re-hash of the new password; every failure leaves
the table unchanged. -/
def change_user_password_described (hs : HashScheme) (caller : User)
    (user_id : Int) (current_password new_password : String)
    (db : List User) : List User × Except ApiFailure UserUpdateResponse :=
  if caller.id ≠ some user_id then (db, .error .forbidden)
  else
    match dbGetUser db user_id with
    | none => (db, .error .notFound)
    | some user_db =>
      if hs.verify current_password user_db.hashed_password = false then
        (db, .error .incorrectCurrentPassword)
      else if hs.verify new_password user_db.hashed_password = true then
        (db, .error .newPasswordSameAsCurrent)
      else
        ( dbSetUser db user_id
            { user_db with hashed_password := hs.hash new_password },
          .ok { message := "Password changed successfully",
                user_id := user_id } )

/-! ## Concrete fixtures for witnesses and counterexamples -/

def uAlice : String := "alice"

def uBob : String := "bob"

def uCarol : String := "carol"

def uidOne : String := "1"

def uidTwo : String := "2"

def uidNine : String := "9"

def infoOf (user_id username : String) : PlayerInfo :=
  { user_id := user_id, username := username, connected_at := 0 }

/-- A two-player room in which nobody has submitted yet. -/
def twoPlayerRoom : GameState :=
  { room_id := 1, max_players := 4, number_of_actions := 3,
    connections := [uAlice, uBob],
    player_info := [(uAlice, infoOf uidOne uAlice), (uBob, infoOf uidTwo uBob)] }

/-- A finished game in which Bob was kicked and eliminated and Alice
won. -/
def kickedRoom : GameState :=
  { room_id := 1, max_players := 4, number_of_actions := 3,
    connections := [uAlice],
    player_info := [(uAlice, infoOf uidOne uAlice)],
    kicked_players := [uBob], game_over := true,
    winner := some uAlice, eliminated_players := [uBob] }

/-- A concrete persisted `Room` row, exactly the columns that
`src/app/models/room.py` declares. -/
def sampleRoomRow : Room :=
  { room_name := "lobby", max_players := 4, number_of_actions := 3,
    created_at := 0, id := some 1, created_by := 1 }

def hashedTag : String := "hashed:"

/-- A concrete bcrypt stand-in used only to instantiate `HashScheme` in
closed theorems: hashing tags the password and verification checks the
tag. -/
def tagHashScheme : HashScheme :=
  { hash := fun s => hashedTag ++ s,
    verify := fun p h => h == hashedTag ++ p }

/-- A concrete user table: Alice (id 1) and Bob (id 2), each with a
stored hash of their own name. -/
def sampleUserTable : List User :=
  [ { username := uAlice, id := some 1,
      hashed_password := tagHashScheme.hash uAlice },
    { username := uBob, id := some 2,
      hashed_password := tagHashScheme.hash uBob } ]

/-! ## Derived views of a processed round -/

/-- The usernames of the active (non-eliminated) entries of a player
table, in order: `GameState.active_players` as a list function. -/
def activeNames (pi : List (String × PlayerInfo)) : List String :=
  (pi.filter (fun p => !p.2.is_eliminated)).map (fun p => p.1)

/-- The usernames the engine eliminates in `process_round`: seat `idx` of
the player list built from the round's action map. -/
def eliminatedNames (elim : Int → List (String × Int) → List Nat)
    (s : GameState) : List String :=
  (elim s.number_of_actions s.current_round.actions).map
    (fun idx => (s.current_round.actions.getD idx (default, 0)).1)

/-- The game state after `process_round`'s elimination loop has marked
every eliminated seat, before the branch on the remaining roster. -/
def eliminationApplied (elim : Int → List (String × Int) → List Nat)
    (s : GameState) : GameState :=
  ((elim s.number_of_actions s.current_round.actions).foldl
    (eliminationStep s.current_round.actions) ([], s)).2

/-! ## More concrete fixtures -/

/-- The two-player room after one add: Alice alone. -/
def joinedOneRoom : GameState :=
  { room_id := 1, max_players := 4, number_of_actions := 3,
    connections := [uAlice],
    player_info := [(uAlice, infoOf uidOne uAlice)] }

/-- The two-player room after both players submitted (rock for Alice,
scissors for Bob). -/
def submittedTwoPlayerRoom : GameState :=
  ((twoPlayerRoom.submit_action uAlice 0).1.submit_action uBob 2).1

/-- The two-player room after the round was processed: Bob eliminated,
Alice the winner, the game over. -/
def gameOverRoom : GameState :=
  (GameState.process_round sampleEliminate submittedTwoPlayerRoom).1

/-- A three-player room in which nobody has submitted yet. -/
def threePlayerRoom : GameState :=
  { room_id := 2, max_players := 4, number_of_actions := 3,
    connections := [uAlice, uBob, uCarol],
    player_info := [(uAlice, infoOf uidOne uAlice),
                    (uBob, infoOf uidTwo uBob),
                    (uCarol, infoOf uidNine uCarol)] }

/-- The three-player room after all three submitted (rock, rock,
scissors). -/
def submittedThreeRoom : GameState :=
  (((threePlayerRoom.submit_action uAlice 0).1.submit_action
    uBob 0).1.submit_action uCarol 2).1

/-- Printable-ASCII strings: every character in `[0x20, 0x7e]`. -/
abbrev isPrintableAscii (s : String) : Prop :=
  ∀ c ∈ s.data, 32 ≤ c.toNat ∧ c.toNat ≤ 126

/-- A single space, the whitespace-only printable-ASCII input. -/
def spaceStr : String := " "

/-- A small printable-ASCII sample input. -/
def hiStr : String := "Hi"

/-! ## Theorems -/

/-! ## Library lemmas about the dictionary and set helpers -/

theorem dictHasKey_eq_isSome {α : Type} (d : List (String × α)) (k : String) :
    dictHasKey d k = (dictGet d k).isSome := by
  induction d with
  | nil => rfl
  | cons p d ih =>
    by_cases h : p.1 == k
    · simp [dictHasKey, dictGet, List.any_cons, List.find?, h]
    · simp [dictHasKey, dictGet, List.any_cons, List.find?, h]
      simpa [dictHasKey, dictGet] using ih

theorem dictGet_dictSet_self {α : Type} (d : List (String × α)) (k : String)
    (v : α) : dictGet (dictSet d k v) k = some v := by
  unfold dictSet
  split
  case isTrue h =>
    induction d with
    | nil => simp at h
    | cons p d ih =>
      by_cases hp : p.1 == k
      · simp [dictGet, List.find?, hp]
      · simp only [List.map_cons, if_neg hp]
        have h' : d.any (fun p => p.1 == k) := by
          simpa [List.any_cons, hp] using h
        simpa [dictGet, List.find?, hp] using ih h'
  case isFalse h =>
    induction d with
    | nil => simp [dictGet]
    | cons p d ih =>
      have hp : ¬ (p.1 == k) := by
        intro hk
        exact h (by simp [List.any_cons, hk])
      have h' : ¬ d.any (fun p => p.1 == k) := by
        intro hk
        exact h (by simp [List.any_cons, hk])
      simpa [dictGet, List.find?, hp] using ih h'

theorem setAdd_contains (s : List String) (u : String) :
    (setAdd s u).contains u = true := by
  unfold setAdd
  split
  case isTrue h => exact h
  case isFalse h => simp

theorem mem_setAdd (s : List String) (u : String) : u ∈ setAdd s u := by
  simpa using setAdd_contains s u


/-- **C1.**  For every `GameState` and every `(username, action)` pair,
`submit_action` behaves exactly as specified: it returns `false` and
leaves the state (in particular the round's action map, the ready set and
the per-player counters) unchanged whenever the username is unknown or
eliminated, the game is over, or the action is out of range, and in every
other case it records the action, marks the username ready, increments
the player's submitted-action counter and returns `true`. -/
theorem submit_action_meets_spec (s : GameState) (username : String)
    (action : Int) :
    s.submit_action username action =
      submit_action_described s username action := by
  unfold GameState.submit_action submit_action_described submitRejected
  rw [dictHasKey_eq_isSome]
  cases h : dictGet s.player_info username with
  | none => simp
  | some info =>
    by_cases he : info.is_eliminated
    · simp [he]
    · by_cases ho : s.game_over
      · simp [he, ho]
      · by_cases ha : action < 0 || action ≥ s.number_of_actions
        · rw [if_pos ha]
          rcases Bool.or_eq_true_iff.mp ha with h1 | h1 <;>
            simp [he, ho, h1]
        · rw [if_neg ha]
          have h1 : ¬ (action < 0) := fun hlt => ha (by simp [hlt])
          have h2 : ¬ (action ≥ s.number_of_actions) := fun hge =>
            ha (by simp [hge])
          simp [he, ho, h1, h2]

/-- **C10.**  Submission is not gated on a started game: in the idle state
(`game_active = false`, `game_over = false`), a connected, non-eliminated
username submitting an action inside `[0, number_of_actions)` still gets
`true`, and the action is recorded; only the game-over flag blocks
submission. -/
theorem submit_action_not_gated_on_game_active (s : GameState)
    (username : String) (action : Int) (info : PlayerInfo)
    (_hactive : s.game_active = false) (hover : s.game_over = false)
    (hinfo : dictGet s.player_info username = some info)
    (helim : info.is_eliminated = false)
    (hlo : 0 ≤ action) (hhi : action < s.number_of_actions) :
    (s.submit_action username action).2 = true ∧
      dictGet (s.submit_action username action).1.current_round.actions
        username = some action ∧
      (s.submit_action username action).1.current_round.ready_players.contains
        username = true := by
  have hrange : (action < 0 || action ≥ s.number_of_actions) = false := by
    have h1 : ¬ (action < 0) := by omega
    have h2 : ¬ (action ≥ s.number_of_actions) := by omega
    simp [h1, h2]
  simp [GameState.submit_action, hinfo, helim, hover, hrange,
    dictGet_dictSet_self, mem_setAdd]

/-- Witness for `submit_action_not_gated_on_game_active`: in the fresh
two-player room (game never started) Alice's submission of action 1 is
accepted and recorded. -/
theorem submit_action_not_gated_witness :
    twoPlayerRoom.game_active = false ∧ twoPlayerRoom.game_over = false ∧
      dictGet twoPlayerRoom.player_info uAlice = some (infoOf uidOne uAlice) ∧
      (infoOf uidOne uAlice).is_eliminated = false ∧
      (0 : Int) ≤ 1 ∧ (1 : Int) < twoPlayerRoom.number_of_actions ∧
      ((twoPlayerRoom.submit_action uAlice 1).2 = true ∧
        dictGet (twoPlayerRoom.submit_action uAlice 1).1.current_round.actions
          uAlice = some 1 ∧
        (twoPlayerRoom.submit_action uAlice
          1).1.current_round.ready_players.contains uAlice = true) :=
  ⟨by decide, by decide, by decide, by decide, by decide, by decide,
    submit_action_not_gated_on_game_active twoPlayerRoom uAlice 1
      (infoOf uidOne uAlice) (by decide) (by decide) (by decide) (by decide)
      (by decide) (by decide)⟩

/-- **C3.**  When the ready-set size differs from the number of active
players, `process_round` raises its `ValueError` precondition failure and
performs no mutation at all: the returned state is exactly the input
state, so the round's action map, ready set, round number, eliminated set,
game-over flag and winner are unchanged. -/
theorem process_round_precondition_failure
    (elim : Int → List (String × Int) → List Nat) (s : GameState)
    (h : s.current_round.ready_players.length ≠ s.active_players.length) :
    GameState.process_round elim s =
      (s, .error .notAllReady) := by
  have hready : s.all_players_ready = false := by
    simpa [GameState.all_players_ready] using h
  simp [GameState.process_round, hready]

/-- Witness for `process_round_precondition_failure`: in the two-player
room with no submissions... the ready set is empty while two players are
active, so the round fails with the precondition error and the state is
untouched. -/
theorem process_round_precondition_failure_witness :
    twoPlayerRoom.current_round.ready_players.length ≠
        twoPlayerRoom.active_players.length ∧
      GameState.process_round sampleEliminate twoPlayerRoom =
        (twoPlayerRoom, .error .notAllReady) :=
  ⟨by decide,
    process_round_precondition_failure sampleEliminate twoPlayerRoom
      (by decide)⟩

/-- **C6.**  `reset_game` clears the game-active and game-over flags, sets
the winner to none, installs a fresh round numbered 1 with empty action
map and ready set, empties the eliminated set, and clears every remaining
player's elimination flag — but leaves the kicked set unchanged, so a
kicked username (attempting a rejoin: the room not full, the name not
currently connected) is still rejected by `add_player` with the
previously-kicked error after the reset. -/
theorem reset_game_spec_and_kick_persists (s : GameState) (now : Nat)
    (user_id username : String) (roomDb : Option Room)
    (hkicked : s.kicked_players.contains username = true)
    (hfull : (s.connections.length < s.max_players))
    (hconn : s.connections.contains username = false) :
    s.reset_game.game_active = false ∧
      s.reset_game.game_over = false ∧
      s.reset_game.winner = none ∧
      s.reset_game.current_round =
        { round_number := 1, actions := [], ready_players := [] } ∧
      s.reset_game.eliminated_players = [] ∧
      (∀ p ∈ s.reset_game.player_info, p.2.is_eliminated = false) ∧
      s.reset_game.kicked_players = s.kicked_players ∧
      GameState.add_player now user_id username s.reset_game roomDb =
        .error .previouslyKicked := by
  refine ⟨rfl, rfl, rfl, rfl, rfl, ?_, rfl, ?_⟩
  · intro p hp
    simp only [GameState.reset_game, List.mem_map] at hp
    obtain ⟨q, _, rfl⟩ := hp
    rfl
  · have hlen : ¬ s.max_players ≤ s.connections.length := by omega
    have hmem : username ∉ s.connections := by simpa using hconn
    have hmem2 : username ∈ s.kicked_players := by simpa using hkicked
    simp [GameState.add_player, GameState.is_full, GameState.reset_game,
      hlen, hmem, hmem2]

/-- Witness for `reset_game_spec_and_kick_persists`: a room that kicked
Bob mid-game; after the reset Bob still cannot rejoin. -/
theorem reset_game_kick_persists_witness :
    kickedRoom.kicked_players.contains uBob = true ∧
      kickedRoom.connections.length < kickedRoom.max_players ∧
      kickedRoom.connections.contains uBob = false ∧
      GameState.add_player 7 uidTwo uBob kickedRoom.reset_game none =
        .error .previouslyKicked := by
  refine ⟨by decide, by decide, by decide, ?_⟩
  exact (reset_game_spec_and_kick_persists kickedRoom 7 uidTwo uBob none
    (by decide) (by decide) (by decide)).2.2.2.2.2.2.2

/-- **C5.**  `add_player` raises the three documented join rejections in
order (room full, username already connected, username previously
kicked), but its success path never completes: the `Room` model declares
no `number_of_players` column, so the increment of the persisted live
counter raises `AttributeError` and the player is never registered.  The
four conjuncts evaluate the code at one concrete input per branch; the
last one is the failing input for the claimed success behaviour. -/
theorem add_player_counter_attribute_error :
    GameState.add_player 7 uidNine uCarol
        { twoPlayerRoom with max_players := 2 } (some sampleRoomRow) =
      .error .roomFull ∧
    GameState.add_player 7 uidNine uAlice twoPlayerRoom (some sampleRoomRow) =
      .error .alreadyInRoom ∧
    GameState.add_player 7 uidNine uCarol
        { twoPlayerRoom with kicked_players := [uCarol] }
        (some sampleRoomRow) =
      .error .previouslyKicked ∧
    GameState.add_player 7 uidNine uCarol twoPlayerRoom (some sampleRoomRow) =
      .error .attributeError ∧
    sampleRoomRow.number_of_players_attr = none := by
  exact ⟨rfl, rfl, rfl, rfl, rfl⟩

/-- **C7.**  For every hashing scheme, caller, target id, supplied current
and new passwords and user table, `change_user_password` behaves exactly
as the claim specifies: 403 on a caller/target mismatch, else 404 on a
missing target, else 400 when the current password fails verification,
else 400 when the new password verifies against the stored hash, else it
stores a re-hash of the new password — the table being returned unchanged
in every failure case. -/
theorem change_user_password_meets_spec (hs : HashScheme) (caller : User)
    (user_id : Int) (current_password new_password : String)
    (db : List User) :
    change_user_password hs caller user_id
        { current_password := some current_password,
          new_password := some new_password } db =
      change_user_password_described hs caller user_id current_password
        new_password db := by
  unfold change_user_password change_user_password_described
  by_cases hc : caller.id = some user_id
  · simp only [hc, ne_eq, not_true_eq_false, if_false, reduceIte]
    cases hdb : dbGetUser db user_id with
    | none => rfl
    | some user_db =>
      simp only [pySecretOfOpt, verify_password, get_password_hash]
      by_cases hcur : hs.verify current_password user_db.hashed_password
      · by_cases hnew : hs.verify new_password user_db.hashed_password
        · simp [hcur, hnew]
        · simp [hcur, hnew]
      · simp [hcur]
  · simp [hc]

/-- **C8.**  `admin_reset_user_password` can never behave as claimed: the
`User` model declares no `is_admin` column, so the very first check
(`current_user.is_admin`) raises `AttributeError` for every caller and
the table is left unchanged — the claimed 403/404/success behaviour is
unreachable.  Moreover, even granting the admin flag, the nominal success
path hashes the whole `AdminResetPassword` request object instead of its
`new_password` string, which passlib rejects with `TypeError`, so the
stored hash could never come to verify against the supplied new
password.  Both slips are evaluated here at a concrete failing input. -/
theorem admin_reset_password_attribute_error :
    admin_reset_user_password tagHashScheme
        { username := uAlice, id := some 1,
          hashed_password := tagHashScheme.hash uAlice }
        2 { new_password := uCarol } sampleUserTable =
      (sampleUserTable, .error .pyAttributeError) ∧
    get_password_hash tagHashScheme (.adminModel { new_password := uCarol }) =
      .error .pyTypeError := by
  exact ⟨rfl, rfl⟩


/-! ## The `process_round` result payload (C2) -/

/-- The elimination fold of `process_round` collects exactly the
usernames of the eliminated seats, and touches neither the current round
nor the game flags nor the winner. -/
theorem elimFold_spec (players : List (String × Int)) (idxs : List Nat)
    (acc : List String × GameState) :
    (idxs.foldl (eliminationStep players) acc).1 =
        acc.1 ++ idxs.map (fun i => (players.getD i (default, 0)).1) ∧
      (idxs.foldl (eliminationStep players) acc).2.current_round =
        acc.2.current_round ∧
      (idxs.foldl (eliminationStep players) acc).2.game_over =
        acc.2.game_over ∧
      (idxs.foldl (eliminationStep players) acc).2.game_active =
        acc.2.game_active ∧
      (idxs.foldl (eliminationStep players) acc).2.winner = acc.2.winner := by
  induction idxs generalizing acc with
  | nil => simp
  | cons i idxs ih =>
    simp only [List.foldl_cons, List.map_cons]
    obtain ⟨h1, h2, h3, h4, h5⟩ := ih (eliminationStep players acc i)
    refine ⟨?_, ?_, ?_, ?_, ?_⟩
    · rw [h1]
      simp [eliminationStep]
    · rw [h2]
      rfl
    · rw [h3]
      rfl
    · rw [h4]
      rfl
    · rw [h5]
      rfl

/-- **C2 counterexample.**  The claim fails on both branches of
`process_round`, each at an explicit concrete input.  In the game-over
branch (Alice and Bob; Bob eliminated) the completed round is round 1 but
the payload reports `round = 0` (the round counter was not advanced, so
`round_number - 1` names the previous round).  In the game-continues
branch (three players; Carol eliminated) the payload reports the correct
completed round number but an empty action map, because the round state
was reset before the payload was built. -/
theorem process_round_payload_counterexample :
    (submittedTwoPlayerRoom.all_players_ready = true ∧
      submittedTwoPlayerRoom.current_round.round_number = 1 ∧
      (GameState.process_round sampleEliminate submittedTwoPlayerRoom).2 =
        .ok { round := 0, actions := [(uAlice, 0), (uBob, 2)],
              eliminated := [uBob], remaining := [uAlice],
              game_over := true, winner := some uAlice }) ∧
    (submittedThreeRoom.all_players_ready = true ∧
      submittedThreeRoom.current_round.round_number = 1 ∧
      submittedThreeRoom.current_round.actions =
        [(uAlice, 0), (uBob, 0), (uCarol, 2)] ∧
      (GameState.process_round sampleEliminate submittedThreeRoom).2 =
        .ok { round := 1, actions := [], eliminated := [uCarol],
              remaining := [uAlice, uBob], game_over := false,
              winner := none }) := by
  exact ⟨⟨rfl, rfl, rfl⟩, ⟨rfl, rfl, rfl, rfl⟩⟩

/-- **C2 (amended).**  When all players are ready (the engine returning
in-range seat indices, every submitted username known), the payload of
`process_round` carries: the eliminated usernames, the post-elimination
roster, and the updated game-over flag and winner — but the `round` key
names the just-completed round only in the game-continues branch, while
in the game-over branch it names that round minus one; and the `actions`
key carries the completed round's submitted action map only in the
game-over branch, while in the game-continues branch it is empty. -/
theorem process_round_result_payload
    (elim : Int → List (String × Int) → List Nat) (s : GameState)
    (hready : s.all_players_ready = true)
    (_hidx : ∀ i ∈ elim s.number_of_actions s.current_round.actions,
      i < s.current_round.actions.length)
    (_hkeys : ∀ p ∈ s.current_round.actions,
      dictHasKey s.player_info p.1 = true) :
    (GameState.process_round elim s).2 =
      .ok { round :=
              if (eliminationApplied elim s).active_players.length ≤ 1 then
                s.current_round.round_number - 1
              else s.current_round.round_number,
            actions :=
              if (eliminationApplied elim s).active_players.length ≤ 1 then
                s.current_round.actions
              else [],
            eliminated := eliminatedNames elim s,
            remaining := (eliminationApplied elim s).active_players,
            game_over :=
              if (eliminationApplied elim s).active_players.length ≤ 1 then
                true
              else s.game_over,
            winner :=
              if (eliminationApplied elim s).active_players.length ≤ 1 then
                (eliminationApplied elim s).active_players.head?
              else s.winner } := by
  obtain ⟨h1, h2, h3, h4, h5⟩ :=
    elimFold_spec s.current_round.actions
      (elim s.number_of_actions s.current_round.actions) ([], s)
  simp only [GameState.process_round, hready, not_true_eq_false, if_false,
    eliminationApplied, eliminatedNames]
  by_cases hrem : (((elim s.number_of_actions
      s.current_round.actions).foldl
        (eliminationStep s.current_round.actions) ([], s)).2).active_players.length ≤ 1
  · simp only [hrem, if_true, if_pos hrem]
    simp [h1, h2, GameState.active_players]
  · simp only [hrem, if_false, if_neg hrem]
    simp only [Except.ok.injEq, RoundResult.mk.injEq]
    refine ⟨?_, rfl, by simp [h1], ?_, by simp [h3], by simp [h5]⟩
    · simp [h2, GameRoundState.reset]
    · simp [GameState.active_players]

/-- Witness for `process_round_result_payload`: the processed two-player
round, with the sample engine, all hypotheses discharged concretely. -/
theorem process_round_result_payload_witness :
    submittedTwoPlayerRoom.all_players_ready = true ∧
      (GameState.process_round sampleEliminate submittedTwoPlayerRoom).2 =
        .ok { round :=
                if (eliminationApplied sampleEliminate
                    submittedTwoPlayerRoom).active_players.length ≤ 1 then
                  submittedTwoPlayerRoom.current_round.round_number - 1
                else submittedTwoPlayerRoom.current_round.round_number,
              actions :=
                if (eliminationApplied sampleEliminate
                    submittedTwoPlayerRoom).active_players.length ≤ 1 then
                  submittedTwoPlayerRoom.current_round.actions
                else [],
              eliminated := eliminatedNames sampleEliminate
                submittedTwoPlayerRoom,
              remaining := (eliminationApplied sampleEliminate
                submittedTwoPlayerRoom).active_players,
              game_over :=
                if (eliminationApplied sampleEliminate
                    submittedTwoPlayerRoom).active_players.length ≤ 1 then
                  true
                else submittedTwoPlayerRoom.game_over,
              winner :=
                if (eliminationApplied sampleEliminate
                    submittedTwoPlayerRoom).active_players.length ≤ 1 then
                  (eliminationApplied sampleEliminate
                    submittedTwoPlayerRoom).active_players.head?
                else submittedTwoPlayerRoom.winner } :=
  ⟨by decide,
    process_round_result_payload sampleEliminate submittedTwoPlayerRoom
      (by decide) (by decide) (by decide)⟩

/-! ## The ready-set invariant (C4) -/

theorem mem_setAdd_iff (l : List String) (v u : String) :
    u ∈ setAdd l v ↔ u ∈ l ∨ u = v := by
  unfold setAdd
  split
  case isTrue h =>
    have hv : v ∈ l := by simpa using h
    constructor
    · exact fun hu => Or.inl hu
    · rintro (hu | rfl)
      · exact hu
      · exact hv
  case isFalse h => simp

theorem activeNames_cons (p : String × PlayerInfo)
    (pi : List (String × PlayerInfo)) :
    activeNames (p :: pi) =
      if p.2.is_eliminated then activeNames pi
      else p.1 :: activeNames pi := by
  by_cases h : p.2.is_eliminated <;> simp [activeNames, List.filter_cons, h]

theorem mem_activeNames_of_dictGet (pi : List (String × PlayerInfo))
    (u : String) (info : PlayerInfo) (h : dictGet pi u = some info)
    (he : info.is_eliminated = false) : u ∈ activeNames pi := by
  induction pi with
  | nil => simp [dictGet] at h
  | cons p pi ih =>
    rw [activeNames_cons]
    by_cases hp : p.1 == u
    · have hpe : p.2 = info := by
        simpa [dictGet, List.find?, hp] using h
      have hpu : p.1 = u := by simpa using hp
      rw [hpe, he, if_neg (by simp), hpu]
      exact List.mem_cons_self u _
    · have h' : dictGet pi u = some info := by
        simpa [dictGet, List.find?, hp] using h
      have hmem := ih h'
      split
      · exact hmem
      · exact List.mem_cons_of_mem _ hmem

theorem activeNames_dictMapAt_bump (pi : List (String × PlayerInfo))
    (u : String) :
    activeNames (dictMapAt pi u
        (fun i => { i with actions_submitted := i.actions_submitted + 1 })) =
      activeNames pi := by
  induction pi with
  | nil => rfl
  | cons p pi ih =>
    have hcons : dictMapAt (p :: pi) u
        (fun i => { i with actions_submitted := i.actions_submitted + 1 }) =
      (if p.1 == u then
        (p.1, { p.2 with actions_submitted := p.2.actions_submitted + 1 })
       else p) ::
        dictMapAt pi u
          (fun i => { i with actions_submitted := i.actions_submitted + 1 }) :=
      rfl
    rw [hcons]
    by_cases hp : p.1 == u
    · rw [if_pos hp, activeNames_cons, activeNames_cons, ih]
    · rw [if_neg hp, activeNames_cons, activeNames_cons, ih]

theorem mem_activeNames_dictPop (pi : List (String × PlayerInfo))
    (u x : String) (hx : x ∈ activeNames pi) (hne : x ≠ u) :
    x ∈ activeNames (dictPop pi u) := by
  induction pi with
  | nil => simp [activeNames] at hx
  | cons p pi ih =>
    rw [activeNames_cons] at hx
    by_cases hp : p.1 = u
    · have hpop : dictPop (p :: pi) u = dictPop pi u := by
        simp [dictPop, List.filter_cons, hp]
      have hx' : x ∈ activeNames pi := by
        cases helim : p.2.is_eliminated with
        | false =>
          rw [helim] at hx
          simp only [Bool.false_eq_true, if_false] at hx
          rcases List.mem_cons.mp hx with hxp | hx'
          · exact absurd (hxp.trans hp) hne
          · exact hx'
        | true =>
          rw [helim] at hx
          simpa using hx
      rw [hpop]
      exact ih hx'
    · have hpop : dictPop (p :: pi) u = p :: dictPop pi u := by
        simp [dictPop, List.filter_cons, hp]
      rw [hpop, activeNames_cons]
      cases helim : p.2.is_eliminated with
      | false =>
        rw [helim] at hx
        simp only [Bool.false_eq_true, if_false] at hx ⊢
        rcases List.mem_cons.mp hx with hxp | hx'
        · exact hxp ▸ List.mem_cons_self _ _
        · exact List.mem_cons_of_mem _ (ih hx')
      | true =>
        rw [helim] at hx
        simp only [if_true] at hx ⊢
        exact ih hx

theorem mem_activeNames_append (pi : List (String × PlayerInfo))
    (e : String × PlayerInfo) (x : String) (hx : x ∈ activeNames pi) :
    x ∈ activeNames (pi ++ [e]) := by
  unfold activeNames at hx ⊢
  rw [List.filter_append, List.map_append]
  exact List.mem_append_left _ hx

/-- With all players ready, the state after `process_round` is the
elimination-marked state with either the game-over flags set (roster of
at most one) or the round reset. -/
theorem process_round_state (elim : Int → List (String × Int) → List Nat)
    (s : GameState) (hready : s.all_players_ready = true) :
    (GameState.process_round elim s).1 =
      if (eliminationApplied elim s).active_players.length ≤ 1 then
        { eliminationApplied elim s with
            game_over := true, game_active := false,
            winner := (eliminationApplied elim s).active_players.head? }
      else
        { eliminationApplied elim s with
            current_round := (eliminationApplied elim s).current_round.reset } := by
  simp only [GameState.process_round, hready, not_true_eq_false, if_false,
    eliminationApplied]

/-- **C4 (amended).**  In every state reachable from a fresh room by the
state-machine operations, as long as the game-over flag is unset, the
current round's ready set is a subset of the active (non-eliminated)
players.  (The unamended claim, without the game-over proviso, fails:
the game-over branch of `process_round` leaves the ready set holding the
just-eliminated players.) -/
theorem ready_subset_active_of_reachable {s : GameState}
    (hreach : Reachable s) :
    s.game_over = false →
      ∀ u ∈ s.current_round.ready_players, u ∈ s.active_players := by
  induction hreach with
  | init rid mp n =>
    intro _ u hu
    exact absurd hu (List.not_mem_nil u)
  | add s s' now uid username hr hok ih =>
    unfold GameState.add_player_mem at hok
    split_ifs at hok
    all_goals
      first
      | exact Except.noConfusion hok
      | · injection hok with hok
          obtain rfl := hok
          intro hover u hu
          exact mem_activeNames_append _ _ _ (ih hover u hu)
  | remove s username hr ih =>
    unfold GameState.remove_player
    by_cases hc : s.connections.contains username = true
    · have hcm : username ∈ s.connections := by simpa using hc
      rw [if_neg (by simp [hcm])]
      intro hover u hu
      have hmem := List.mem_filter.mp hu
      have hne : u ≠ username := by simpa using hmem.2
      exact mem_activeNames_dictPop _ _ _ (ih hover u hmem.1) hne
    · have hcm : username ∉ s.connections := by simpa using hc
      rw [if_pos (by simp [hcm])]
      exact ih
  | submit s username action hr ih =>
    unfold GameState.submit_action
    cases hg : dictGet s.player_info username with
    | none => exact ih
    | some info =>
      by_cases he : info.is_eliminated = true
      · simp only [he, if_true]
        exact ih
      · simp only [he, Bool.false_eq_true, if_false]
        by_cases ho : s.game_over = true
        · simp only [ho, if_true]
          intro hover
          exact absurd hover (by simp)
        · simp only [ho, Bool.false_eq_true, if_false]
          by_cases ha :
              (action < 0 || action ≥ s.number_of_actions) = true
          · simp only [ha, if_true]
            exact ih
          · simp only [ha, Bool.false_eq_true, if_false]
            intro _ u hu
            have ho' : s.game_over = false := by simpa using ho
            rcases (mem_setAdd_iff _ _ _).mp hu with hu' | rfl
            · show u ∈ activeNames (dictMapAt s.player_info username
                (fun i => { i with
                  actions_submitted := i.actions_submitted + 1 }))
              rw [activeNames_dictMapAt_bump]
              exact ih ho' u hu'
            · show u ∈ activeNames (dictMapAt s.player_info u
                (fun i => { i with
                  actions_submitted := i.actions_submitted + 1 }))
              rw [activeNames_dictMapAt_bump]
              exact mem_activeNames_of_dictGet _ _ _ hg (by simpa using he)
  | process s elim hr ih =>
    by_cases hready : s.all_players_ready = true
    · rw [process_round_state elim s hready]
      split
      · intro hover
        exact absurd hover (by simp)
      · intro _ u hu
        exact absurd hu (List.not_mem_nil u)
    · unfold GameState.process_round
      rw [if_pos (by simpa using hready)]
      exact ih
  | start s hr ih =>
    unfold GameState.start_game
    by_cases h1 : s.connections.length < 2
    · rw [if_pos h1]
      exact ih
    · rw [if_neg h1]
      by_cases h2 : s.game_active = true
      · rw [if_pos h2]
        exact ih
      · rw [if_neg h2]
        intro _ u hu
        exact absurd hu (List.not_mem_nil u)
  | reset s hr ih =>
    intro _ u hu
    exact absurd hu (List.not_mem_nil u)

/-- The two-player room is reachable: fresh room, Alice joins, Bob
joins. -/
theorem reachable_twoPlayerRoom : Reachable twoPlayerRoom := by
  have h0 : Reachable (GameState.fresh 1 4 3) := Reachable.init 1 4 3
  have h1 : Reachable joinedOneRoom :=
    Reachable.add (GameState.fresh 1 4 3) joinedOneRoom 0 uidOne uAlice h0
      (by rfl)
  exact Reachable.add joinedOneRoom twoPlayerRoom 0 uidTwo uBob h1 (by rfl)

/-- … both players then submit. -/
theorem reachable_submittedTwoPlayerRoom :
    Reachable submittedTwoPlayerRoom :=
  Reachable.submit _ uBob 2
    (Reachable.submit _ uAlice 0 reachable_twoPlayerRoom)

/-- … and the round is processed. -/
theorem reachable_gameOverRoom : Reachable gameOverRoom :=
  Reachable.process _ sampleEliminate reachable_submittedTwoPlayerRoom

/-- **C4 counterexample.**  A reachable state in which the ready set is
not a subset of the active players: after the game-over round, Bob is
still in the ready set (the game-over branch never clears it) but he is
eliminated, hence not active. -/
theorem ready_subset_counterexample :
    Reachable gameOverRoom ∧
      uBob ∈ gameOverRoom.current_round.ready_players ∧
      uBob ∉ gameOverRoom.active_players :=
  ⟨reachable_gameOverRoom, by decide, by decide⟩

/-- Witness for `ready_subset_active_of_reachable`: in the reachable
pre-processing state the game is not over, Alice is ready, and the
theorem places her among the active players. -/
theorem ready_subset_witness :
    submittedTwoPlayerRoom.game_over = false ∧
      uAlice ∈ submittedTwoPlayerRoom.current_round.ready_players ∧
      uAlice ∈ submittedTwoPlayerRoom.active_players :=
  ⟨by decide, by decide,
    ready_subset_active_of_reachable reachable_submittedTwoPlayerRoom
      (by decide) uAlice (by decide)⟩

/-! ## Base64 and UTF-8 round-trip lemmas (C9) -/

theorem b64IndexOf_b64CharOf : ∀ n, n < 64 →
    b64IndexOf (b64CharOf n) = some n := by decide

theorem b64CharOf_mem (n : Nat) : b64CharOf n ∈ b64Alphabet := by
  by_cases h : n < 64
  · revert n
    decide
  · unfold b64CharOf
    rw [List.getD_eq_default]
    · decide
    · simpa using Nat.le_of_not_lt h

theorem b64CharOf_ne_pad (n : Nat) : b64CharOf n ≠ '=' := by
  intro h
  have := b64CharOf_mem n
  rw [h] at this
  exact absurd this (by decide)

theorem b64EncodeBytes_chars :
    ∀ (l : List Nat), ∀ c ∈ b64EncodeBytes l,
      c ∈ b64Alphabet ∨ c = '=' := by
  have key : ∀ (n : Nat) (l : List Nat), l.length ≤ n →
      ∀ c ∈ b64EncodeBytes l, c ∈ b64Alphabet ∨ c = '=' := by
    intro n
    induction n with
    | zero =>
      intro l hl c hc
      have : l = [] := List.eq_nil_of_length_eq_zero (Nat.le_zero.mp hl)
      subst this
      simp [b64EncodeBytes] at hc
    | succ n ih =>
      intro l hl c hc
      match l with
      | [] => simp [b64EncodeBytes] at hc
      | [a] =>
        simp [b64EncodeBytes] at hc
        rcases hc with rfl | rfl | rfl
        · exact Or.inl (b64CharOf_mem _)
        · exact Or.inl (b64CharOf_mem _)
        · exact Or.inr rfl
      | [a, b] =>
        simp [b64EncodeBytes] at hc
        rcases hc with rfl | rfl | rfl | rfl
        · exact Or.inl (b64CharOf_mem _)
        · exact Or.inl (b64CharOf_mem _)
        · exact Or.inl (b64CharOf_mem _)
        · exact Or.inr rfl
      | a :: b :: d :: rest =>
        simp only [b64EncodeBytes, List.mem_cons] at hc
        rcases hc with rfl | rfl | rfl | rfl | hc
        · exact Or.inl (b64CharOf_mem _)
        · exact Or.inl (b64CharOf_mem _)
        · exact Or.inl (b64CharOf_mem _)
        · exact Or.inl (b64CharOf_mem _)
        · exact ih rest (by simp at hl; omega) c hc
  exact fun l => key l.length l le_rfl

theorem b64DecodeQuads_b64EncodeBytes :
    ∀ (l : List Nat), (∀ x ∈ l, x < 256) →
      b64DecodeQuads (b64EncodeBytes l) = some l := by
  have key : ∀ (n : Nat) (l : List Nat), l.length ≤ n →
      (∀ x ∈ l, x < 256) →
      b64DecodeQuads (b64EncodeBytes l) = some l := by
    intro n
    induction n with
    | zero =>
      intro l hl _
      have : l = [] := List.eq_nil_of_length_eq_zero (Nat.le_zero.mp hl)
      subst this
      rfl
    | succ n ih =>
      intro l hl hbound
      match l with
      | [] => rfl
      | [a] =>
        have ha : a < 256 := hbound a (by simp)
        have h1 : a / 4 < 64 := by omega
        have h2 : a % 4 * 16 < 64 := by omega
        simp [b64EncodeBytes, b64DecodeQuads,
          b64IndexOf_b64CharOf _ h1, b64IndexOf_b64CharOf _ h2]
        omega
      | [a, b] =>
        have ha : a < 256 := hbound a (by simp)
        have hb : b < 256 := hbound b (by simp)
        have h1 : a / 4 < 64 := by omega
        have h2 : a % 4 * 16 + b / 16 < 64 := by omega
        have h3 : b % 16 * 4 < 64 := by omega
        simp [b64EncodeBytes, b64DecodeQuads,
          b64IndexOf_b64CharOf _ h1, b64IndexOf_b64CharOf _ h2,
          b64IndexOf_b64CharOf _ h3, b64CharOf_ne_pad]
        refine ⟨by omega, by omega⟩
      | a :: b :: d :: rest =>
        have ha : a < 256 := hbound a (by simp)
        have hb : b < 256 := hbound b (by simp)
        have hd : d < 256 := hbound d (by simp)
        have h1 : a / 4 < 64 := by omega
        have h2 : a % 4 * 16 + b / 16 < 64 := by omega
        have h3 : b % 16 * 4 + d / 64 < 64 := by omega
        have h4 : d % 64 < 64 := by omega
        have htail : b64DecodeQuads (b64EncodeBytes rest) = some rest :=
          ih rest (by simp at hl; omega)
            (fun x hx => hbound x (by simp [hx]))
        simp [b64EncodeBytes, b64DecodeQuads,
          b64IndexOf_b64CharOf _ h1, b64IndexOf_b64CharOf _ h2,
          b64IndexOf_b64CharOf _ h3, b64IndexOf_b64CharOf _ h4,
          b64CharOf_ne_pad, htail]
        refine ⟨by omega, by omega, by omega⟩
  exact fun l => key l.length l le_rfl

theorem utf8EncodeChar_ascii (n : Nat) (h : n < 128) :
    utf8EncodeChar n = [n] := by
  unfold utf8EncodeChar
  rw [if_pos h]

theorem utf8EncodeChar_ne_nil (n : Nat) : utf8EncodeChar n ≠ [] := by
  unfold utf8EncodeChar
  split_ifs <;> simp

theorem flatMap_utf8_ascii :
    ∀ (cs : List Char), (∀ c ∈ cs, c.toNat < 128) →
      cs.flatMap (fun c => utf8EncodeChar c.toNat) = cs.map Char.toNat := by
  intro cs h
  induction cs with
  | nil => rfl
  | cons c cs ih =>
    rw [List.flatMap_cons, List.map_cons,
      utf8EncodeChar_ascii _ (h c (List.mem_cons_self c cs)),
      ih (fun d hd => h d (List.mem_cons_of_mem c hd))]
    rfl

theorem utf8DecodeStep_ascii (b : Nat) (rest : List Nat) (h : b < 128) :
    utf8DecodeStep b rest = some (b, rest) := by
  unfold utf8DecodeStep
  rw [if_pos h]

theorem utf8DecodeBytes_map_toNat :
    ∀ (cs : List Char), (∀ c ∈ cs, c.toNat < 128) →
      utf8DecodeBytes (cs.map Char.toNat) = some cs := by
  intro cs h
  unfold utf8DecodeBytes
  rw [List.length_map]
  induction cs with
  | nil => rfl
  | cons c cs ih =>
    rw [List.map_cons, List.length_cons, utf8DecodeAux,
      utf8DecodeStep_ascii _ _ (h c (List.mem_cons_self c cs))]
    simp [ih (fun d hd => h d (List.mem_cons_of_mem c hd)),
      Char.ofNat_toNat]

theorem strToBytes_ne_nil (x : String) (h : x.data ≠ []) :
    strToBytes x ≠ [] := by
  unfold strToBytes
  cases hx : x.data with
  | nil => exact absurd hx h
  | cons c cs =>
    rw [List.flatMap_cons]
    simp [utf8EncodeChar_ne_nil]

theorem b64EncodeBytes_ne_nil (l : List Nat) (h : l ≠ []) :
    b64EncodeBytes l ≠ [] := by
  match l with
  | [] => exact absurd rfl h
  | [a] => simp [b64EncodeBytes]
  | [a, b] => simp [b64EncodeBytes]
  | a :: b :: d :: rest => simp [b64EncodeBytes]

theorem substDec_substEnc_pairKey1 :
    ∀ c ∈ pairKey1, substDecChar (substEncChar c) = c := by decide

theorem b64Alphabet_sub_pairKey1 : ∀ c ∈ b64Alphabet, c ∈ pairKey1 := by
  decide

theorem pad_mem_pairKey1 : '=' ∈ pairKey1 := by decide

theorem substEnc_mem_pairKey0 : ∀ c ∈ pairKey1, substEncChar c ∈ pairKey0 := by
  decide

theorem pairKey0_not_space : ∀ c ∈ pairKey0, isPySpaceChar c = false := by
  decide

/-- **C9 (amended).**  For every printable-ASCII string that is not
(non-empty) whitespace-only, the substitution-cipher round trip
`two_way_dec (two_way_enc x) = x` holds; `two_way_enc` maps both the
empty string and the single space to the empty string.  (On a non-empty
whitespace-only printable input such as a single space the round trip
fails — see the counterexample — because the encoder short-circuits such
input to the empty string.) -/
theorem two_way_roundtrip (x : String)
    (hascii : isPrintableAscii x) (hns : pyIsSpace x = false) :
    two_way_dec (two_way_enc x) = some x ∧
      two_way_enc emptyStr = emptyStr ∧
      two_way_enc spaceStr = emptyStr := by
  refine ⟨?_, by decide, by decide⟩
  by_cases hempty : x.data.isEmpty
  · have hx : x = emptyStr := by
      obtain ⟨d⟩ := x
      cases d with
      | nil => rfl
      | cons a l => simp at hempty
    rw [hx]
    decide
  · have hlist : ∀ c ∈ x.data, c.toNat < 128 := by
      intro c hc
      have := hascii c hc
      omega
    have hsb : strToBytes x = x.data.map Char.toNat :=
      flatMap_utf8_ascii x.data hlist
    have hbytes : ∀ y ∈ strToBytes x, y < 256 := by
      rw [hsb]
      intro y hy
      obtain ⟨c, hc, rfl⟩ := List.mem_map.mp hy
      have := hlist c hc
      omega
    set B := b64EncodeBytes (strToBytes x) with hBdef
    have hBchars : ∀ c ∈ B, c ∈ b64Alphabet ∨ c = '=' :=
      b64EncodeBytes_chars (strToBytes x)
    have hBpk1 : ∀ c ∈ B, c ∈ pairKey1 := by
      intro c hc
      rcases hBchars c hc with h | rfl
      · exact b64Alphabet_sub_pairKey1 c h
      · exact pad_mem_pairKey1
    have hBne : B ≠ [] :=
      b64EncodeBytes_ne_nil _ (strToBytes_ne_nil x (by simpa using hempty))
    have henc : two_way_enc x = ⟨B.map substEncChar⟩ := by
      unfold two_way_enc
      rw [if_neg (by simp [hempty, hns])]
      rfl
    rw [henc]
    have hEmem : ∀ c ∈ B.map substEncChar, c ∈ pairKey0 := by
      intro c hc
      obtain ⟨b, hb, rfl⟩ := List.mem_map.mp hc
      exact substEnc_mem_pairKey0 b (hBpk1 b hb)
    have hEne : B.map substEncChar ≠ [] := by
      simpa using hBne
    unfold two_way_dec
    rw [if_neg ?guard]
    case guard =>
      cases hBl : B.map substEncChar with
      | nil => exact absurd hBl hEne
      | cons e E2 =>
        have hsp : isPySpaceChar e = false :=
          pairKey0_not_space e (hEmem e (hBl ▸ List.mem_cons_self e E2))
        simp [pyIsSpace, hBl, hsp]
    have hED : (B.map substEncChar).map substDecChar = B := by
      rw [List.map_map]
      have hpt : ∀ b ∈ B, (substDecChar ∘ substEncChar) b = b := fun b hb =>
        substDec_substEnc_pairKey1 b (hBpk1 b hb)
      rw [List.map_congr_left hpt]
      simp
    show base64_dec ⟨(B.map substEncChar).map substDecChar⟩ = some x
    rw [hED]
    have hfilter :
        B.filter (fun c => b64Alphabet.contains c || c == '=') = B := by
      apply List.filter_eq_self.mpr
      intro c hc
      rcases hBchars c hc with h | rfl
      · simp [h]
      · simp
    have hdec : b64DecodeChars B = some (strToBytes x) := by
      unfold b64DecodeChars
      rw [hfilter, hBdef]
      exact b64DecodeQuads_b64EncodeBytes _ hbytes
    have hutf : utf8DecodeBytes (strToBytes x) = some x.data := by
      rw [hsb]
      exact utf8DecodeBytes_map_toNat x.data hlist
    show base64_dec ⟨B⟩ = some x
    unfold base64_dec
    have hdata : (⟨B⟩ : String).data = B := rfl
    rw [hdata, hdec]
    simp [hutf]

/-- **C9 counterexample.**  The single space is printable ASCII, yet its
round trip yields the empty string, not the space: the encoder
short-circuits whitespace-only input to the empty string, which the
decoder maps to the empty string. -/
theorem two_way_roundtrip_counterexample :
    isPrintableAscii spaceStr ∧
      two_way_dec (two_way_enc spaceStr) = some emptyStr ∧
      spaceStr ≠ emptyStr :=
  ⟨by decide, by decide, by decide⟩

/-- Witness for `two_way_roundtrip`: the printable, non-whitespace input
`"Hi"` round-trips. -/
theorem two_way_roundtrip_witness :
    isPrintableAscii hiStr ∧ pyIsSpace hiStr = false ∧
      (two_way_dec (two_way_enc hiStr) = some hiStr ∧
        two_way_enc emptyStr = emptyStr ∧
        two_way_enc spaceStr = emptyStr) :=
  ⟨by decide, by decide, two_way_roundtrip hiStr (by decide) (by decide)⟩
